import Mathlib

/-!
Shallow embedding of the booking domain engine of the Bus-Ticket-Booking-System
repository: the validation engine and boarding-sequence planner
(`src/utils/validation.js`, `src/utils/boardingAlgorithm.js`) and the
persistence layer (`src/utils/constants.js`, `src/utils/localStorage.js`).

Modelling conventions:
* JS strings are Lean `String`s; character-level operations work on `String.data`.
* JS numbers that are always integers are `Nat`/`Int`; the one place where
  fractional values and `NaN` arise (the time-savings percentage) is modelled
  by the `JSNum` type over `ℚ` with explicit `nan`/infinity constructors,
  mirroring IEEE special cases for division by zero.
* The localStorage read-modify-write cycle is modelled by explicit state
  passing of the `Store` value (the in-memory fallback semantics, which the
  module documents as behaving identically to the localStorage path).
* The clock (`new Date()` for "today") is passed in as a `today : String`
  parameter in canonical `YYYY-MM-DD` form; comparison of two parsed
  `YYYY-MM-DD` dates after `setHours(0,0,0,0)` truncation coincides with
  lexicographic comparison of the strings, and is modelled as such.
-/

/-! ## JS string and number primitives -/

/-- JS `parseInt(s, 10)` digit value of an ASCII digit character. -/
def charDigitVal (c : Char) : Nat := c.toNat - 48

/-- Fold a big-endian list of ASCII digit characters to the `Nat` it denotes. -/
def parseDigitsBE (cs : List Char) : Nat :=
  cs.foldl (fun a c => a * 10 + charDigitVal c) 0

/-- Model of JS `parseInt(s, 10)`: parse the leading run of decimal digits;
`none` models the `NaN` result when the string does not start with a digit. -/
def jsParseInt (s : String) : Option Nat :=
  let ds := s.data.takeWhile Char.isDigit
  if ds.isEmpty then none else some (parseDigitsBE ds)

/-- Little-endian decimal digits of `n`, computed with explicit fuel
(`fuel ≥ n` suffices); `digitsAuxJs fuel 0 = []`. -/
def digitsAuxJs : Nat → Nat → List Nat
  | 0, _ => []
  | fuel + 1, n => if n = 0 then [] else (n % 10) :: digitsAuxJs fuel (n / 10)

/-- The ASCII character of the decimal digit `d`. -/
def decDigitChar (d : Nat) : Char := Char.ofNat (d + 48)

/-- Model of JS `Number.prototype.toString()` for a nonnegative integer. -/
def jsNatToString (n : Nat) : String :=
  if n = 0 then "0" else ⟨((digitsAuxJs n n).reverse.map decDigitChar)⟩

/-- Model of JS `String.prototype.padStart(6, '0')`. -/
def padStart6 (s : String) : String :=
  ⟨List.replicate (6 - s.data.length) '0' ++ s.data⟩

/-- Model of JS `s.split('-').pop()`: the substring after the last `'-'`
(the whole string when no `'-'` occurs). -/
def lastDashComponent (s : String) : String :=
  ⟨(s.data.reverse.takeWhile (fun c => c != '-')).reverse⟩

/-- Model of the JS global-regex replace deleting every `'-'` from a date. -/
def removeDashes (s : String) : String :=
  ⟨s.data.filter (fun c => c != '-')⟩

/-- Model of JS `s.replace(pat, rep)` with a string pattern: replace the first
occurrence only (list-level worker). -/
def replaceFirstL (pat rep : List Char) : List Char → List Char
  | [] => []
  | c :: rest =>
    if pat.isPrefixOf (c :: rest) then rep ++ (c :: rest).drop pat.length
    else c :: replaceFirstL pat rep rest

/-- Model of JS `s.replace(pat, rep)` with a string pattern. -/
def strReplaceFirst (s pat rep : String) : String :=
  ⟨replaceFirstL pat.data rep.data s.data⟩

/-- Model of JS `Array.prototype.join(sep)` for an array of strings. -/
def joinSep (sep : String) : List String → String
  | [] => ""
  | [x] => x
  | x :: y :: rest => x ++ sep ++ joinSep sep (y :: rest)

/-- Model of JS `s.replace(/[\s-]/g, '')` used to clean a mobile number. -/
def cleanMobile (s : String) : String :=
  ⟨s.data.filter (fun c => !(c.isWhitespace || c == '-'))⟩

/-- A JS number as it occurs in the time-savings computation: an exact
rational, `NaN`, or a signed infinity (the three IEEE cases reachable from
integer inputs through one division). -/
inductive JSNum where
  | nan : JSNum
  | posInf : JSNum
  | negInf : JSNum
  | val : ℚ → JSNum
  deriving DecidableEq, Repr

/-- JS `/` on the numbers reachable here: `0/0 = NaN`, `x/0 = ±Infinity`,
exact quotient otherwise.  Non-finite operands (which the modelled code never
produces on the left of a division) propagate to `NaN`. -/
def jsDiv (a b : JSNum) : JSNum :=
  match a, b with
  | JSNum.val x, JSNum.val y =>
    if y = 0 then
      (if x = 0 then JSNum.nan else if 0 < x then JSNum.posInf else JSNum.negInf)
    else JSNum.val (x / y)
  | _, _ => JSNum.nan

/-- JS `*` by a finite constant. -/
def jsMulConst (a : JSNum) (c : ℚ) : JSNum :=
  match a with
  | JSNum.val x => JSNum.val (x * c)
  | JSNum.nan => JSNum.nan
  | JSNum.posInf => if 0 < c then JSNum.posInf else if c < 0 then JSNum.negInf else JSNum.nan
  | JSNum.negInf => if 0 < c then JSNum.negInf else if c < 0 then JSNum.posInf else JSNum.nan

/-- JS `x.toFixed(0)`: rounds a finite value half-away-from-zero to an integer
(which for the nonnegative values arising here is `round`, i.e. half-up);
`NaN`/infinities yield the strings `"NaN"`/`"Infinity"`, kept here as the
corresponding `JSNum`. -/
def jsToFixed0 : JSNum → JSNum
  | JSNum.val x => JSNum.val (round x)
  | a => a

/-! ## Constants (`src/utils/constants.js`) -/

def MAX_SEATS_PER_BOOKING : Nat := 6

def BOOKING_ID_PREFIX : String := "BK"

def MOBILE_ERROR : String :=
  "Please enter a valid 10-digit mobile number starting with 6-9"

def INVALID_MOBILE : String := MOBILE_ERROR

def PAST_DATE : String := "Travel date cannot be in the past."

def NO_SEATS_SELECTED : String := "Please select at least one seat."

def SEAT_LIMIT_MSG : String := "You cannot book more than 6 seats."

def SAME_MOBILE_LIMIT : String :=
  "This mobile number has already booked {booked} seats for this date. You can book {remaining} more seats."

/-- `MOBILE_PATTERN = /^[6-9]\d{9}$/` as a predicate on the cleaned string. -/
def mobilePattern (s : String) : Bool :=
  match s.data with
  | c :: cs => ('6' ≤ c && c ≤ '9') && cs.length == 9 && cs.all Char.isDigit
  | [] => false

/-! ## Validation engine (`src/utils/validation.js`) -/

structure MobileResult where
  isValid : Bool
  error : Option String
  cleanedNumber : Option String
  deriving DecidableEq, Repr

structure SimpleResult where
  isValid : Bool
  error : Option String
  deriving DecidableEq, Repr

structure DupResult where
  isValid : Bool
  error : Option String
  duplicates : List String
  deriving DecidableEq, Repr

structure LimitResult where
  isValid : Bool
  error : Option String
  remainingSeats : Int
  deriving DecidableEq, Repr

/-- `validateMobileNumber` (validation.js:13). The empty string is the falsy
case of `!mobileNumber`. -/
def validateMobileNumber (mobileNumber : String) : MobileResult :=
  if mobileNumber == "" then
    ⟨false, some "Mobile number is required.", none⟩
  else
    let cleanedNumber := cleanMobile mobileNumber
    if cleanedNumber.data.length ≠ 10 then
      ⟨false, some "Mobile number must be exactly 10 digits.", none⟩
    else if !mobilePattern cleanedNumber then
      ⟨false, some INVALID_MOBILE, none⟩
    else
      ⟨true, none, some cleanedNumber⟩

/-- `validateTravelDate` (validation.js:50), with the clock passed in as
`today`; comparison of truncated `Date`s on canonical `YYYY-MM-DD` strings is
lexicographic comparison. -/
def validateTravelDate (today dateString : String) : SimpleResult :=
  if dateString == "" then
    ⟨false, some "Travel date is required."⟩
  else if dateString.data < today.data then
    ⟨false, some PAST_DATE⟩
  else
    ⟨true, none⟩

/-- `validateSeatSelection` (validation.js:84). -/
def validateSeatSelection (selectedSeats : List String) (maxSeats : Nat) : SimpleResult :=
  if selectedSeats.isEmpty then
    ⟨false, some NO_SEATS_SELECTED⟩
  else if selectedSeats.length > maxSeats then
    ⟨false, some SEAT_LIMIT_MSG⟩
  else
    ⟨true, none⟩

/-- `checkDuplicateSeats` (validation.js:111). -/
def checkDuplicateSeats (selectedSeats bookedSeats : List String) : DupResult :=
  let duplicates := selectedSeats.filter (fun seat => bookedSeats.contains seat)
  if duplicates.length > 0 then
    ⟨false, some ("The following seats are already booked: " ++ joinSep ", " duplicates),
      duplicates⟩
  else
    ⟨true, none, []⟩

/-- `checkSeatLimitForMobile` (validation.js:137).  `mobileNumber` and `date`
are accepted but unused, as in the source. -/
def checkSeatLimitForMobile (mobileNumber date : String)
    (selectedSeatsCount alreadyBookedCount : Nat) : LimitResult :=
  let totalSeats := selectedSeatsCount + alreadyBookedCount
  if totalSeats > MAX_SEATS_PER_BOOKING then
    let remainingSeats : Int := (MAX_SEATS_PER_BOOKING : Int) - alreadyBookedCount
    ⟨false,
      some (strReplaceFirst
        (strReplaceFirst SAME_MOBILE_LIMIT "{booked}" (toString alreadyBookedCount))
        "{remaining}" (toString (if 0 < remainingSeats then remainingSeats else 0))),
      remainingSeats⟩
  else
    ⟨true, none, (MAX_SEATS_PER_BOOKING : Int) - totalSeats⟩

/-- The candidate record passed to `validateBookingForm`: `bookingId` and
`currentSeats` are the optional fields the update path reads. -/
structure FormData where
  mobileNumber : String
  travelDate : String
  seats : List String
  bookingId : Option String
  currentSeats : Option (List String)
  deriving DecidableEq, Repr

/-- The field-keyed `errors` object built by `validateBookingForm`. -/
structure FormErrors where
  mobileNumber : Option String
  travelDate : Option String
  seats : Option String
  deriving DecidableEq, Repr

/-- `Object.keys(errors).length === 0`. -/
def errorsEmpty (e : FormErrors) : Bool :=
  e.mobileNumber.isNone && e.travelDate.isNone && e.seats.isNone

structure FormResult where
  isValid : Bool
  errors : FormErrors
  deriving DecidableEq, Repr

/-- JS truthiness of the optional string `formData.bookingId`. -/
def jsTruthyStrOpt : Option String → Bool
  | none => false
  | some s => !(s == "")

/-- `validateBookingForm` (validation.js:170).  Returns the result together
with the (possibly mutated) candidate: the source assigns
`formData.mobileNumber = mobileValidation.cleanedNumber` when the mobile check
passes.  The duplicate-seat and per-mobile-cap blocks are guarded by
`Object.keys(errors).length === 0` exactly as in the source. -/
def validateBookingForm (today : String) (formData : FormData)
    (bookedSeats : List String) (existingSeatsCount : Nat) : FormResult × FormData :=
  let mobileValidation := validateMobileNumber formData.mobileNumber
  let errs1 : FormErrors :=
    if mobileValidation.isValid then ⟨none, none, none⟩
    else ⟨mobileValidation.error, none, none⟩
  let fd1 : FormData :=
    match mobileValidation.cleanedNumber with
    | some c => {formData with mobileNumber := c}
    | none => formData
  let dateValidation := validateTravelDate today fd1.travelDate
  let errs2 := if dateValidation.isValid then errs1
    else {errs1 with travelDate := dateValidation.error}
  let seatValidation := validateSeatSelection fd1.seats MAX_SEATS_PER_BOOKING
  let errs3 := if seatValidation.isValid then errs2
    else {errs2 with seats := seatValidation.error}
  let errs4 :=
    if errorsEmpty errs3 && jsTruthyStrOpt fd1.bookingId then
      let excludeSeats := bookedSeats.filter (fun seat =>
        match fd1.currentSeats with
        | none => true
        | some cs => !(cs.contains seat))
      let duplicateCheck := checkDuplicateSeats fd1.seats excludeSeats
      if duplicateCheck.isValid then errs3 else {errs3 with seats := duplicateCheck.error}
    else if errorsEmpty errs3 && !jsTruthyStrOpt fd1.bookingId then
      let duplicateCheck := checkDuplicateSeats fd1.seats bookedSeats
      if duplicateCheck.isValid then errs3 else {errs3 with seats := duplicateCheck.error}
    else errs3
  let errs5 :=
    if errorsEmpty errs4 then
      let limitCheck := checkSeatLimitForMobile fd1.mobileNumber fd1.travelDate
        fd1.seats.length existingSeatsCount
      if limitCheck.isValid then errs4 else {errs4 with seats := limitCheck.error}
    else errs4
  (⟨errorsEmpty errs5, errs5⟩, fd1)

/-! ## Boarding sequence planner (`src/utils/boardingAlgorithm.js`) -/

/-- `extractRowNumber` (boardingAlgorithm.js): `seat.match(/\d+/)` finds the
first run of decimal digits; its `parseInt` value, `0` when there is none. -/
def firstDigitRun : List Char → Option (List Char)
  | [] => none
  | c :: rest =>
    if c.isDigit then some (c :: rest.takeWhile Char.isDigit)
    else firstDigitRun rest

def extractRowNumber (seat : String) : Nat :=
  match firstDigitRun seat.data with
  | some ds => parseDigitsBE ds
  | none => 0

/-- `findFarthestRow`: `Math.max(...seats.map(extractRowNumber))` with `0` for
an empty list. -/
def findFarthestRow (seats : List String) : Nat :=
  if seats.isEmpty then 0 else (seats.map extractRowNumber).foldl max 0

/-- `countSeatsInRow`. -/
def countSeatsInRow (seats : List String) (row : Nat) : Nat :=
  (seats.filter (fun seat => extractRowNumber seat == row)).length

/-- The persisted booking record. -/
structure Booking where
  bookingId : String
  travelDate : String
  mobileNumber : String
  seats : List String
  bookingTime : String
  boardingStatus : String
  deriving DecidableEq, Repr

/-- A booking spread together with the planner metadata and the assigned
boarding sequence number (`0` models the field being absent). -/
structure SeqBooking extends Booking where
  farthestRow : Nat
  totalSeats : Nat
  seatsInFarthestRow : Nat
  sequenceNumber : Nat
  deriving DecidableEq, Repr

/-- The metadata-annotation step of `calculateOptimalBoardingSequence`. -/
def annotate (booking : Booking) : SeqBooking :=
  { toBooking := booking
    farthestRow := findFarthestRow booking.seats
    totalSeats := booking.seats.length
    seatsInFarthestRow := countSeatsInRow booking.seats (findFarthestRow booking.seats)
    sequenceNumber := 0 }

/-- `a.bookingId.localeCompare(b.bookingId)` for the ASCII booking ids used
here: lexicographic three-way comparison. -/
def jsStrCmp (a b : String) : Int :=
  if a.data < b.data then -1 else if b.data < a.data then 1 else 0

/-- The comparator passed to `.sort` in `calculateOptimalBoardingSequence`:
descending farthest row, then descending seats-in-farthest-row, then
descending total seats, then ascending booking id. -/
def jsCmp (a b : SeqBooking) : Int :=
  if b.farthestRow ≠ a.farthestRow then (b.farthestRow : Int) - a.farthestRow
  else if b.seatsInFarthestRow ≠ a.seatsInFarthestRow then
    (b.seatsInFarthestRow : Int) - a.seatsInFarthestRow
  else if b.totalSeats ≠ a.totalSeats then (b.totalSeats : Int) - a.totalSeats
  else jsStrCmp a.bookingId b.bookingId

/-- `a` sorts no later than `b` under the JS comparator. -/
def boardingLE (a b : SeqBooking) : Bool := decide (jsCmp a b ≤ 0)

/-- The final `.map((booking, index) => ({...booking, sequenceNumber: index + 1}))`,
as an index-threading map starting at `i`. -/
def withSeq : Nat → List SeqBooking → List SeqBooking
  | _, [] => []
  | i, b :: rest => {b with sequenceNumber := i} :: withSeq (i + 1) rest

/-- `calculateOptimalBoardingSequence` (boardingAlgorithm.js).  JS
`Array.prototype.sort` with a consistent comparator is modelled by the stable
`List.mergeSort` under `boardingLE`. -/
def calculateOptimalBoardingSequence (bookings : List Booking) : List SeqBooking :=
  if bookings.isEmpty then []
  else withSeq 1 ((bookings.map annotate).mergeSort boardingLE)

structure BoardingTime where
  optimalTimeSeconds : Nat
  optimalTimeMinutes : Nat
  optimalTimeMessage : String
  deriving DecidableEq, Repr

/-- `calculateBoardingTime`: the optimal time is the constant 60-second settle
duration whenever there is at least one booking. -/
def calculateBoardingTime (bookings : List α) : BoardingTime :=
  if bookings.isEmpty then ⟨0, 0, "0 seconds"⟩
  else
    let optimalTimeSeconds : Nat := 60
    let optimalTimeMinutes := optimalTimeSeconds / 60
    let remainingSeconds := optimalTimeSeconds % 60
    let optimalTimeMessage :=
      if optimalTimeMinutes > 0 && remainingSeconds > 0 then
        s!"{optimalTimeMinutes} min {remainingSeconds} sec"
      else if optimalTimeMinutes > 0 then
        s!"{optimalTimeMinutes} minute" ++ (if optimalTimeMinutes > 1 then "s" else "")
      else
        s!"{remainingSeconds} seconds"
    ⟨optimalTimeSeconds, optimalTimeMinutes, optimalTimeMessage⟩

/-- `calculateNaturalOrderTime`: each group's settle time in sequence. -/
def calculateNaturalOrderTime (bookings : List α) : Nat :=
  if bookings.isEmpty then 0 else bookings.length * 60

structure TimeSavings where
  savingsSeconds : Int
  savingsMinutes : Int
  savingsMessage : String
  savingsPercentage : JSNum
  deriving DecidableEq, Repr

/-- `calculateTimeSavings` (boardingAlgorithm.js).  `Math.floor` on a possibly
negative quotient is floor division and JS `%` is truncating remainder; the
unguarded `(savingsSeconds / naturalTimeSeconds) * 100).toFixed(0)` is the
`JSNum` pipeline, so a zero `naturalTimeSeconds` with zero savings yields
`NaN`. -/
def calculateTimeSavings (naturalTimeSeconds optimalTimeSeconds : Int) : TimeSavings :=
  let savingsSeconds := naturalTimeSeconds - optimalTimeSeconds
  let savingsMinutes := Int.fdiv savingsSeconds 60
  let remainingSeconds := Int.tmod savingsSeconds 60
  let savingsMessage :=
    if savingsMinutes > 0 && remainingSeconds > 0 then
      s!"{savingsMinutes}m {remainingSeconds}s"
    else if savingsMinutes > 0 then
      s!"{savingsMinutes}m"
    else
      s!"{remainingSeconds}s"
  let savingsPercentage :=
    jsToFixed0 (jsMulConst (jsDiv (JSNum.val savingsSeconds) (JSNum.val naturalTimeSeconds)) 100)
  ⟨savingsSeconds, savingsMinutes, savingsMessage, savingsPercentage⟩

/-! ## Persistence layer (`src/utils/localStorage.js`) -/

/-- The in-memory store shape: `{ bookings, lastBookingNumber }`.  The counter
is a `Nat`: it starts at `0` and is only ever raised to a parsed decimal
suffix. -/
structure Store where
  bookings : List Booking
  lastBookingNumber : Nat
  deriving DecidableEq, Repr

structure SaveResult where
  success : Bool
  message : String
  booking : Option Booking
  deriving DecidableEq, Repr

structure DeleteResult where
  success : Bool
  message : String
  deriving DecidableEq, Repr

/-- Numeric suffix of a booking id:
`parseInt(booking.bookingId.split('-').pop(), 10)`, `none` for `NaN`. -/
def numericSuffix (bookingId : String) : Option Nat :=
  jsParseInt (lastDashComponent bookingId)

/-- `saveBooking` (localStorage.js): upsert against the current store.  The
read-modify-write against the persistence surface is explicit state passing,
and the write succeeds (the in-memory path).  A `NaN` parsed suffix fails the
`bookingNumber > data.lastBookingNumber` test, leaving the counter unchanged. -/
def saveBooking (booking : Booking) (store : Store) : SaveResult × Store :=
  match List.findIdx? (fun b => b.bookingId == booking.bookingId) store.bookings with
  | some existingIndex =>
    (⟨true, "Booking updated successfully!", some booking⟩,
      {store with bookings := store.bookings.set existingIndex booking})
  | none =>
    let lastBookingNumber' :=
      match numericSuffix booking.bookingId with
      | some bookingNumber =>
        if bookingNumber > store.lastBookingNumber then bookingNumber
        else store.lastBookingNumber
      | none => store.lastBookingNumber
    (⟨true, "Booking created successfully!", some booking⟩,
      ⟨store.bookings ++ [booking], lastBookingNumber'⟩)

/-- `deleteBooking` (localStorage.js). -/
def deleteBooking (bookingId : String) (store : Store) : DeleteResult × Store :=
  let filtered := store.bookings.filter (fun b => !(b.bookingId == bookingId))
  if filtered.length = store.bookings.length then
    (⟨false, "Booking not found."⟩, store)
  else
    (⟨true, "Booking cancelled successfully!"⟩, {store with bookings := filtered})

/-- `getNextBookingNumber`. -/
def getNextBookingNumber (store : Store) : Nat := store.lastBookingNumber + 1

/-- `generateBookingId`: `` `${BOOKING_ID_PREFIX}-${datePart}-${sequenceNumber}` ``. -/
def generateBookingId (date : String) (store : Store) : String :=
  let datePart := removeDashes date
  let sequenceNumber := padStart6 (jsNatToString (getNextBookingNumber store))
  BOOKING_ID_PREFIX ++ "-" ++ datePart ++ "-" ++ sequenceNumber

/-- `loadAll` on the in-memory store: `getBookingsFromStorage` returns a
shallow copy of `_inMemoryStore`. -/
def loadAllMem (store : Store) : Store := store

/-- One store mutation, as issued by the UI layer. -/
inductive StoreOp where
  | save (booking : Booking)
  | del (bookingId : String)

def applyOp (store : Store) : StoreOp → Store
  | StoreOp.save b => (saveBooking b store).2
  | StoreOp.del bookingId => (deleteBooking bookingId store).2

def applyOps (store : Store) (ops : List StoreOp) : Store :=
  ops.foldl applyOp store

/-- Every existing booking id's parsed numeric suffix is at most `last`
(`true` also when the suffix is `NaN`). -/
def suffixOK (bookingId : String) (last : Nat) : Bool :=
  match numericSuffix bookingId with
  | some n => n ≤ last
  | none => true

/-- The store invariant of the data model: the counter dominates the numeric
suffix of every existing booking id. -/
def SuffixInv (store : Store) : Prop :=
  ∀ b ∈ store.bookings, suffixOK b.bookingId store.lastBookingNumber = true

instance (store : Store) : Decidable (SuffixInv store) := by
  unfold SuffixInv
  infer_instance

/-! ## Raw deserialization boundary of `getBookingsFromStorage` -/

/-- A parsed JSON value, as produced by `JSON.parse`. -/
inductive JValue where
  | null : JValue
  | bool : Bool → JValue
  | num : ℚ → JValue
  | str : String → JValue
  | arr : List JValue → JValue
  | obj : List (String × JValue) → JValue

/-- The persisted blob as seen by `getBookingsFromStorage`: absent key,
a string `JSON.parse` throws on, or a parsed value. -/
inductive StorageBlob where
  | absent : StorageBlob
  | unparsable : StorageBlob
  | value : JValue → StorageBlob

/-- JS truthiness of a parsed JSON value (`!parsed`). -/
def jsTruthy : JValue → Bool
  | JValue.null => false
  | JValue.bool b => b
  | JValue.num q => !(decide (q = 0))
  | JValue.str s => !(s == "")
  | JValue.arr _ => true
  | JValue.obj _ => true

/-- `typeof parsed === 'object'` (`null`, arrays and objects). -/
def typeofObject : JValue → Bool
  | JValue.null => true
  | JValue.arr _ => true
  | JValue.obj _ => true
  | _ => false

/-- Property access `parsed.key`; `none` models `undefined`. -/
def getProp (v : JValue) (key : String) : Option JValue :=
  match v with
  | JValue.obj fields => (fields.find? (fun p => p.1 == key)).map (fun p => p.2)
  | _ => none

/-- `Array.isArray(parsed.bookings)`. -/
def isJsArray : Option JValue → Bool
  | some (JValue.arr _) => true
  | _ => false

/-- `typeof parsed.lastBookingNumber === 'number'`. -/
def isJsNumber : Option JValue → Bool
  | some (JValue.num _) => true
  | _ => false

/-- The structural check of `getBookingsFromStorage` on the parsed blob. -/
def wellShapedStore (v : JValue) : Bool :=
  jsTruthy v && typeofObject v && isJsArray (getProp v "bookings")
    && isJsNumber (getProp v "lastBookingNumber")

/-- The raw store returned at the deserialization boundary. -/
structure RawStore where
  bookings : List JValue
  lastBookingNumber : ℚ

/-- What `getBookingsFromStorage` did besides returning a store: `warned` is
the structural `console.warn`, `cleared` the `localStorage.removeItem`. -/
structure LoadOutcome where
  store : RawStore
  warned : Bool
  cleared : Bool

/-- `getBookingsFromStorage` (localStorage.js:129) at the deserialization
boundary: absent key and parse exception both return the empty store (the
latter through the `catch`), a malformed shape is discarded with a warning,
and a well-shaped blob is returned as is.  Total by construction: no input
raises. -/
def getBookingsFromStorage (blob : StorageBlob) : LoadOutcome :=
  match blob with
  | StorageBlob.absent => ⟨⟨[], 0⟩, false, false⟩
  | StorageBlob.unparsable => ⟨⟨[], 0⟩, false, false⟩
  | StorageBlob.value v =>
    if wellShapedStore v then
      ⟨⟨(match getProp v "bookings" with
          | some (JValue.arr xs) => xs
          | _ => []),
        (match getProp v "lastBookingNumber" with
          | some (JValue.num q) => q
          | _ => 0)⟩, false, false⟩
    else ⟨⟨[], 0⟩, true, true⟩

/-! ## Specification-side notions used to state the claims -/

/-- The sort key of the claimed ordering: `(farthestRow, seatsInFarthestRow,
totalSeatCount)`. -/
def boardingKey (b : SeqBooking) : Nat × Nat × Nat :=
  (b.farthestRow, b.seatsInFarthestRow, b.totalSeats)

/-- Strict descending comparison of two sort keys: `x` strictly precedes `y`
when `x` is lexicographically greater. -/
def tupleGT (x y : Nat × Nat × Nat) : Prop :=
  y.1 < x.1 ∨ (x.1 = y.1 ∧ (y.2.1 < x.2.1 ∨ (x.2.1 = y.2.1 ∧ y.2.2 < x.2.2)))

/-- The claimed boarding order: descending by the key tuple, ties broken
ascending lexicographically by booking id. -/
def claimOrd (a b : SeqBooking) : Prop :=
  tupleGT (boardingKey a) (boardingKey b)
  ∨ (boardingKey a = boardingKey b ∧ a.bookingId.data ≤ b.bookingId.data)

instance (a b : SeqBooking) : Decidable (claimOrd a b) := by
  unfold claimOrd tupleGT
  infer_instance

/-- Forget the assigned sequence number (for stating that the planner returns
the same bookings, annotation aside). -/
def stripSeq (b : SeqBooking) : SeqBooking := {b with sequenceNumber := 0}

/-! # Theorems -/

/-! ## Helper lemmas about `List.findIdx?` and `List.set` -/

theorem findIdx?_loc {α : Type} (p : α → Bool) :
    ∀ (l : List α) (i₀ i : Nat), List.findIdx? p l i₀ = some i →
      i₀ ≤ i ∧ i - i₀ < l.length ∧ ∃ x ∈ l, p x = true := by
  intro l
  induction l with
  | nil => intro i₀ i h; simp [List.findIdx?] at h
  | cons x xs ih =>
    intro i₀ i h
    rw [List.findIdx?_cons] at h
    by_cases hp : p x = true
    · rw [if_pos hp] at h
      obtain rfl : i₀ = i := by simpa using h
      exact ⟨le_refl _, by simp, x, by simp, hp⟩
    · rw [if_neg hp] at h
      obtain ⟨h1, h2, y, hy, hpy⟩ := ih (i₀ + 1) i h
      exact ⟨by omega, by simp; omega, y, by simp [hy], hpy⟩

theorem findIdx?_eq_none_of_all {α : Type} (p : α → Bool) :
    ∀ (l : List α) (i₀ : Nat), (∀ x ∈ l, p x = false) → List.findIdx? p l i₀ = none := by
  intro l
  induction l with
  | nil => intro i₀ _; simp [List.findIdx?]
  | cons x xs ih =>
    intro i₀ hall
    rw [List.findIdx?_cons, if_neg (by simp [hall x (by simp)])]
    exact ih (i₀ + 1) (fun y hy => hall y (by simp [hy]))

/-! ## C5: per-mobile daily seat cap -/

/-- C5: `checkSeatLimitForMobile` accepts exactly when
`selected + alreadyBooked ≤ 6`, and on violation its message reports the
already-booked count and the remaining allowance `max (6 - alreadyBooked) 0`. -/
theorem checkSeatLimit_spec (mobileNumber date : String) (s a : Nat) (hs : 1 ≤ s) :
    ((checkSeatLimitForMobile mobileNumber date s a).isValid = true ↔ s + a ≤ 6)
    ∧ (6 < s + a →
      (checkSeatLimitForMobile mobileNumber date s a).error =
        some (strReplaceFirst
          (strReplaceFirst SAME_MOBILE_LIMIT "{booked}" (toString a))
          "{remaining}" (toString (max ((6 : Int) - a) 0)))) := by
  simp only [checkSeatLimitForMobile, MAX_SEATS_PER_BOOKING, Nat.cast_ofNat]
  refine ⟨?_, ?_⟩
  · split_ifs with h
    · exact iff_of_false (by simp) (by omega)
    · exact iff_of_true rfl (by omega)
  · intro hgt
    rw [if_pos (show s + a > 6 from hgt)]
    have hmax : (if (0 : Int) < 6 - (a : Int) then (6 : Int) - (a : Int) else 0)
        = max ((6 : Int) - a) 0 := by
      split_ifs with h0 <;> omega
    simp only [hmax]

/-- Witness for C5 at the spec's example: 4 seats already booked, 2 more
allowed, 3 rejected with the message reporting `booked = 4`, `remaining = 2`. -/
theorem checkSeatLimit_spec_witness :
    (checkSeatLimitForMobile "9876543210" "2025-06-15" 2 4).isValid = true
    ∧ (checkSeatLimitForMobile "9876543210" "2025-06-15" 3 4).isValid = false
    ∧ (checkSeatLimitForMobile "9876543210" "2025-06-15" 3 4).error =
      some "This mobile number has already booked 4 seats for this date. You can book 2 more seats." := by
  refine ⟨?_, ?_, ?_⟩
  · exact (checkSeatLimit_spec "9876543210" "2025-06-15" 2 4 (by decide)).1.mpr (by decide)
  · cases hb : (checkSeatLimitForMobile "9876543210" "2025-06-15" 3 4).isValid with
    | false => rfl
    | true =>
      exact absurd ((checkSeatLimit_spec "9876543210" "2025-06-15" 3 4 (by decide)).1.mp hb)
        (by decide)
  · rw [(checkSeatLimit_spec "9876543210" "2025-06-15" 3 4 (by decide)).2 (by decide)]
    decide

/-! ## C10: empty-list statistics and the unguarded percentage -/

/-- C10: on the empty booking list the natural-order time and the optimal
time are both `0`, and `calculateTimeSavings 0 0` returns zero savings with a
percentage computed as `0/0`, i.e. `NaN`, not a number. -/
theorem empty_boarding_stats :
    calculateNaturalOrderTime ([] : List Booking) = 0
    ∧ (calculateBoardingTime ([] : List Booking)).optimalTimeSeconds = 0
    ∧ (calculateTimeSavings 0 0).savingsSeconds = 0
    ∧ (calculateTimeSavings 0 0).savingsPercentage = JSNum.nan := by
  refine ⟨rfl, rfl, rfl, ?_⟩
  simp [calculateTimeSavings, jsDiv, jsMulConst, jsToFixed0]

/-! ## C8: `getBookingsFromStorage` self-heals on corrupt blobs -/

/-- C8: an absent blob and an unparsable blob both load as the empty store,
and every blob failing the structural shape check (not a truthy object, a
non-array `bookings`, or a non-number `lastBookingNumber`) is discarded with a
warning and loads as the empty store; the loader is total, so no input
raises. -/
theorem loadAll_corrupt_blob (v : JValue) (hm : wellShapedStore v = false) :
    getBookingsFromStorage (StorageBlob.value v) = ⟨⟨[], 0⟩, true, true⟩
    ∧ getBookingsFromStorage StorageBlob.absent = ⟨⟨[], 0⟩, false, false⟩
    ∧ getBookingsFromStorage StorageBlob.unparsable = ⟨⟨[], 0⟩, false, false⟩ := by
  refine ⟨?_, rfl, rfl⟩
  simp [getBookingsFromStorage, hm]

/-- Witness for C8: a blob whose `bookings` field is a string, not an array. -/
theorem loadAll_corrupt_blob_witness :
    wellShapedStore
      (JValue.obj [("bookings", JValue.str "corrupt"), ("lastBookingNumber", JValue.num 3)])
        = false
    ∧ getBookingsFromStorage (StorageBlob.value
        (JValue.obj [("bookings", JValue.str "corrupt"), ("lastBookingNumber", JValue.num 3)]))
        = ⟨⟨[], 0⟩, true, true⟩ :=
  ⟨rfl,
    (loadAll_corrupt_blob
      (JValue.obj [("bookings", JValue.str "corrupt"), ("lastBookingNumber", JValue.num 3)])
      rfl).1⟩

/-! ## C9: what validation mutates on the candidate -/

/-- C9 (amended): `validateBookingForm` leaves every candidate field unchanged
except `mobileNumber`, which is replaced by its cleaned 10-digit form exactly
when the mobile-number check passes — even when overall validation fails. -/
theorem validation_mutation_frame (today : String) (fd : FormData)
    (bookedSeats : List String) (cnt : Nat) :
    ((validateBookingForm today fd bookedSeats cnt).2).travelDate = fd.travelDate
    ∧ ((validateBookingForm today fd bookedSeats cnt).2).seats = fd.seats
    ∧ ((validateBookingForm today fd bookedSeats cnt).2).bookingId = fd.bookingId
    ∧ ((validateBookingForm today fd bookedSeats cnt).2).currentSeats = fd.currentSeats
    ∧ ((validateBookingForm today fd bookedSeats cnt).2).mobileNumber
        = ((validateMobileNumber fd.mobileNumber).cleanedNumber).getD fd.mobileNumber := by
  unfold validateBookingForm
  cases hcn : (validateMobileNumber fd.mobileNumber).cleanedNumber <;> simp [hcn]

/-- Counterexample to C9 as stated: a candidate whose mobile number needs
cleaning but whose travel date is missing is mutated even though validation
fails. -/
theorem validation_mutation_cex :
    ((validateBookingForm "2000-01-01"
        ⟨"987-654-3210", "", ["A1"], none, none⟩ [] 0).1).isValid = false
    ∧ ((validateBookingForm "2000-01-01"
        ⟨"987-654-3210", "", ["A1"], none, none⟩ [] 0).2).mobileNumber
        ≠ "987-654-3210" := by
  decide

/-! ## C3: error accumulation across fields -/

/-- Counterexample to C3 as stated: a candidate violating both the mobile rule
and the duplicate-seat rule (seat `A5` is already booked) gets a mobile error
but no seats error, because the duplicate check is gated on
`Object.keys(errors).length === 0`. -/
theorem validation_shortCircuit_cex :
    (validateMobileNumber "123").isValid = false
    ∧ ("A5" : String) ∈ (["A5"] : List String)
    ∧ ((validateBookingForm "2000-01-01"
        ⟨"123", "2099-06-15", ["A5"], none, none⟩ ["A5"] 0).1).errors.mobileNumber.isSome = true
    ∧ ((validateBookingForm "2000-01-01"
        ⟨"123", "2099-06-15", ["A5"], none, none⟩ ["A5"] 0).1).errors.seats = none := by
  decide

/-! ## Helper lemmas relating each rule's error to its validity flag -/

theorem validateMobileNumber_error_none (m : String) :
    (validateMobileNumber m).error = none ↔ (validateMobileNumber m).isValid = true := by
  simp only [validateMobileNumber]
  split_ifs <;> simp

theorem validateTravelDate_error_none (today d : String) :
    (validateTravelDate today d).error = none ↔ (validateTravelDate today d).isValid = true := by
  unfold validateTravelDate
  split_ifs <;> simp

theorem validateSeatSelection_error_none (l : List String) (m : Nat) :
    (validateSeatSelection l m).error = none ↔ (validateSeatSelection l m).isValid = true := by
  unfold validateSeatSelection
  split_ifs <;> simp

theorem validateMobileNumber_cleaned_isValid (m : String) :
    ((validateMobileNumber m).cleanedNumber).isSome = (validateMobileNumber m).isValid := by
  simp only [validateMobileNumber]
  split_ifs <;> rfl

theorem checkDuplicateSeats_spec (sel booked : List String) :
    ((checkDuplicateSeats sel booked).isValid = true ↔ ∀ seat ∈ sel, seat ∉ booked)
    ∧ ((checkDuplicateSeats sel booked).error = none ↔ ∀ seat ∈ sel, seat ∉ booked) := by
  simp only [checkDuplicateSeats]
  split_ifs with h
  · have hx : ¬ ∀ seat ∈ sel, seat ∉ booked := by
      obtain ⟨x, hx⟩ := List.exists_mem_of_length_pos h
      obtain ⟨hx1, hx2⟩ := List.mem_filter.mp hx
      exact fun hall => hall x hx1 (by simpa using hx2)
    exact ⟨iff_of_false (by simp) hx, iff_of_false (by simp) hx⟩
  · have hall : ∀ seat ∈ sel, seat ∉ booked := by
      intro seat hseat hmem
      have : seat ∈ sel.filter (fun seat => booked.contains seat) :=
        List.mem_filter.mpr ⟨hseat, by simpa using hmem⟩
      have hlen := List.length_pos.mpr (List.ne_nil_of_mem this)
      omega
    exact ⟨iff_of_true rfl hall, iff_of_true rfl hall⟩

theorem checkSeatLimit_valid_iff (m d : String) (s a : Nat) :
    ((checkSeatLimitForMobile m d s a).isValid = true ↔ s + a ≤ 6)
    ∧ ((checkSeatLimitForMobile m d s a).error = none ↔ s + a ≤ 6) := by
  simp only [checkSeatLimitForMobile, MAX_SEATS_PER_BOOKING]
  split_ifs with h
  · exact ⟨iff_of_false (by simp) (by omega), iff_of_false (by simp) (by omega)⟩
  · exact ⟨iff_of_true rfl (by omega), iff_of_true rfl (by omega)⟩

theorem validateMobileNumber_error_isNone (m : String) :
    (validateMobileNumber m).error.isNone = (validateMobileNumber m).isValid := by
  simp only [validateMobileNumber]
  split_ifs <;> rfl

theorem validateTravelDate_error_isNone (today d : String) :
    (validateTravelDate today d).error.isNone = (validateTravelDate today d).isValid := by
  unfold validateTravelDate
  split_ifs <;> rfl

theorem validateSeatSelection_error_isNone (l : List String) (m : Nat) :
    (validateSeatSelection l m).error.isNone = (validateSeatSelection l m).isValid := by
  unfold validateSeatSelection
  split_ifs <;> rfl

/-- C3 (amended): the mobile, travel-date and seat-count rules are checked
independently and their errors accumulate per field, but the duplicate-seat
and per-mobile-cap checks run only when no error has been recorded yet, so a
candidate violating the mobile (or date) rule together with the duplicate rule
gets no seats entry. -/
theorem validation_error_accumulation (today : String) (fd : FormData)
    (bookedSeats : List String) (cnt : Nat) :
    ((validateMobileNumber fd.mobileNumber).isValid = false →
      ((validateBookingForm today fd bookedSeats cnt).1).errors.mobileNumber
        = (validateMobileNumber fd.mobileNumber).error)
    ∧ ((validateTravelDate today fd.travelDate).isValid = false →
      ((validateBookingForm today fd bookedSeats cnt).1).errors.travelDate
        = (validateTravelDate today fd.travelDate).error)
    ∧ ((validateSeatSelection fd.seats MAX_SEATS_PER_BOOKING).isValid = false →
      ((validateBookingForm today fd bookedSeats cnt).1).errors.seats
        = (validateSeatSelection fd.seats MAX_SEATS_PER_BOOKING).error)
    ∧ (((validateMobileNumber fd.mobileNumber).isValid = false
        ∨ (validateTravelDate today fd.travelDate).isValid = false)
      → (validateSeatSelection fd.seats MAX_SEATS_PER_BOOKING).isValid = true
      → ((validateBookingForm today fd bookedSeats cnt).1).errors.seats = none) := by
  have hisoM := validateMobileNumber_cleaned_isValid fd.mobileNumber
  unfold validateBookingForm
  cases hcn : (validateMobileNumber fd.mobileNumber).cleanedNumber with
  | none =>
    rw [hcn] at hisoM
    have hmv : (validateMobileNumber fd.mobileNumber).isValid = false := by simpa using hisoM.symm
    cases hdv : (validateTravelDate today fd.travelDate).isValid with
    | false =>
      cases hsv : (validateSeatSelection fd.seats MAX_SEATS_PER_BOOKING).isValid with
      | false => simp [hcn, hmv, hdv, hsv, errorsEmpty, validateMobileNumber_error_isNone,
          validateTravelDate_error_isNone, validateSeatSelection_error_isNone]
      | true => simp [hcn, hmv, hdv, hsv, errorsEmpty, validateMobileNumber_error_isNone,
          validateTravelDate_error_isNone, validateSeatSelection_error_isNone]
    | true =>
      cases hsv : (validateSeatSelection fd.seats MAX_SEATS_PER_BOOKING).isValid with
      | false => simp [hcn, hmv, hdv, hsv, errorsEmpty, validateMobileNumber_error_isNone,
          validateTravelDate_error_isNone, validateSeatSelection_error_isNone]
      | true => simp [hcn, hmv, hdv, hsv, errorsEmpty, validateMobileNumber_error_isNone,
          validateTravelDate_error_isNone, validateSeatSelection_error_isNone]
  | some c =>
    rw [hcn] at hisoM
    have hmv : (validateMobileNumber fd.mobileNumber).isValid = true := by simpa using hisoM.symm
    cases hdv : (validateTravelDate today fd.travelDate).isValid with
    | false =>
      cases hsv : (validateSeatSelection fd.seats MAX_SEATS_PER_BOOKING).isValid with
      | false => simp [hcn, hmv, hdv, hsv, errorsEmpty, validateMobileNumber_error_isNone,
          validateTravelDate_error_isNone, validateSeatSelection_error_isNone]
      | true => simp [hcn, hmv, hdv, hsv, errorsEmpty, validateMobileNumber_error_isNone,
          validateTravelDate_error_isNone, validateSeatSelection_error_isNone]
    | true =>
      cases hsv : (validateSeatSelection fd.seats MAX_SEATS_PER_BOOKING).isValid with
      | false => simp [hcn, hmv, hdv, hsv, errorsEmpty, validateMobileNumber_error_isNone,
          validateTravelDate_error_isNone, validateSeatSelection_error_isNone]
      | true => simp [hmv, hdv, hsv]

/-- Witness for C3 at the concrete counterexample input: the mobile error is
recorded and, despite seat `A5` being a duplicate, no seats error is. -/
theorem validation_error_accumulation_witness :
    ((validateBookingForm "2000-01-01" ⟨"123", "2099-06-15", ["A5"], none, none⟩
        ["A5"] 0).1).errors.mobileNumber = (validateMobileNumber "123").error
    ∧ ((validateBookingForm "2000-01-01" ⟨"123", "2099-06-15", ["A5"], none, none⟩
        ["A5"] 0).1).errors.seats = none := by
  have h := validation_error_accumulation "2000-01-01"
    ⟨"123", "2099-06-15", ["A5"], none, none⟩ ["A5"] 0
  exact ⟨h.1 (by decide), h.2.2.2 (Or.inl (by decide)) (by decide)⟩

theorem checkDuplicateSeats_error_isNone (sel booked : List String) :
    (checkDuplicateSeats sel booked).error.isNone = (checkDuplicateSeats sel booked).isValid := by
  simp only [checkDuplicateSeats]
  split_ifs <;> rfl

theorem checkSeatLimit_error_isNone (m d : String) (s a : Nat) :
    (checkSeatLimitForMobile m d s a).error.isNone
      = (checkSeatLimitForMobile m d s a).isValid := by
  simp only [checkSeatLimitForMobile]
  split_ifs <;> rfl

/-- C4: with all other rules passing, creating (no `bookingId`) fails with a
seats error exactly when a selected seat is already booked, while updating
(`bookingId` present) first removes the booking's own `currentSeats` from the
conflict set, so re-selecting one's own seats succeeds and only seats booked
by another booking conflict. -/
theorem duplicate_check_paths (today : String) (fd : FormData)
    (bookedSeats : List String) (cnt : Nat)
    (hm : (validateMobileNumber fd.mobileNumber).isValid = true)
    (hd : (validateTravelDate today fd.travelDate).isValid = true)
    (hs : (validateSeatSelection fd.seats MAX_SEATS_PER_BOOKING).isValid = true)
    (hcap : fd.seats.length + cnt ≤ 6) :
    (fd.bookingId = none →
      ((((validateBookingForm today fd bookedSeats cnt).1).isValid = false
          ↔ ∃ seat ∈ fd.seats, seat ∈ bookedSeats)
        ∧ (((validateBookingForm today fd bookedSeats cnt).1).errors.seats.isSome = true
          ↔ ∃ seat ∈ fd.seats, seat ∈ bookedSeats)))
    ∧ (∀ bid cs, fd.bookingId = some bid → bid ≠ "" → fd.currentSeats = some cs →
      ((((validateBookingForm today fd bookedSeats cnt).1).isValid = false
          ↔ ∃ seat ∈ fd.seats, seat ∈ bookedSeats ∧ seat ∉ cs)
        ∧ (((validateBookingForm today fd bookedSeats cnt).1).errors.seats.isSome = true
          ↔ ∃ seat ∈ fd.seats, seat ∈ bookedSeats ∧ seat ∉ cs))) := by
  have hisoM := validateMobileNumber_cleaned_isValid fd.mobileNumber
  rw [hm] at hisoM
  cases hcn : (validateMobileNumber fd.mobileNumber).cleanedNumber with
  | none => rw [hcn] at hisoM; simp at hisoM
  | some c =>
    have hcapB : (checkSeatLimitForMobile c fd.travelDate fd.seats.length cnt).isValid = true :=
      (checkSeatLimit_valid_iff c fd.travelDate fd.seats.length cnt).1.mpr hcap
    constructor
    · intro h0
      by_cases hdup : (checkDuplicateSeats fd.seats bookedSeats).isValid = true
      · have hnodup := (checkDuplicateSeats_spec fd.seats bookedSeats).1.mp hdup
        have hres : (validateBookingForm today fd bookedSeats cnt).1 = ⟨true, ⟨none, none, none⟩⟩ := by
          unfold validateBookingForm
          simp [hcn, hm, hd, hs, h0, errorsEmpty, jsTruthyStrOpt, hdup, hcapB]
        rw [hres]
        exact ⟨iff_of_false (by simp) (by simpa using hnodup),
          iff_of_false (by simp) (by simpa using hnodup)⟩
      · have hdupB : (checkDuplicateSeats fd.seats bookedSeats).isValid = false := by
          simpa using hdup
        have hdupN : (checkDuplicateSeats fd.seats bookedSeats).error.isNone = false := by
          rw [checkDuplicateSeats_error_isNone, hdupB]
        have hex : ∃ seat ∈ fd.seats, seat ∈ bookedSeats := by
          have hna : ¬ ∀ seat ∈ fd.seats, seat ∉ bookedSeats := fun hall =>
            hdup ((checkDuplicateSeats_spec fd.seats bookedSeats).1.mpr hall)
          push_neg at hna
          exact hna
        have hS : (checkDuplicateSeats fd.seats bookedSeats).error.isSome = true := by
          cases hoe : (checkDuplicateSeats fd.seats bookedSeats).error with
          | none => rw [hoe] at hdupN; simp at hdupN
          | some e => rfl
        have hres : (validateBookingForm today fd bookedSeats cnt).1
            = ⟨false, ⟨none, none, (checkDuplicateSeats fd.seats bookedSeats).error⟩⟩ := by
          unfold validateBookingForm
          simp [hcn, hm, hd, hs, h0, errorsEmpty, jsTruthyStrOpt, hdupB, hdupN]
        rw [hres]
        exact ⟨iff_of_true rfl hex, iff_of_true hS hex⟩
    · intro bid cs h0 hne h1
      have hbid : jsTruthyStrOpt (some bid) = true := by simp [jsTruthyStrOpt, hne]
      by_cases hdup : (checkDuplicateSeats fd.seats
          (bookedSeats.filter (fun seat => !decide (seat ∈ cs)))).isValid = true
      · have hnodup := (checkDuplicateSeats_spec fd.seats
          (bookedSeats.filter (fun seat => !decide (seat ∈ cs)))).1.mp hdup
        have hnodup' : ¬ ∃ seat ∈ fd.seats, seat ∈ bookedSeats ∧ seat ∉ cs := by
          rintro ⟨seat, hseat, hmem, hnotown⟩
          exact hnodup seat hseat (List.mem_filter.mpr ⟨hmem, by simpa using hnotown⟩)
        have hres : (validateBookingForm today fd bookedSeats cnt).1 = ⟨true, ⟨none, none, none⟩⟩ := by
          unfold validateBookingForm
          simp [hcn, hm, hd, hs, h0, h1, errorsEmpty, hbid, hdup, hcapB]
        rw [hres]
        exact ⟨iff_of_false (by simp) hnodup', iff_of_false (by simp) hnodup'⟩
      · have hdupB : (checkDuplicateSeats fd.seats
            (bookedSeats.filter (fun seat => !decide (seat ∈ cs)))).isValid = false := by
          simpa using hdup
        have hdupN : (checkDuplicateSeats fd.seats
            (bookedSeats.filter (fun seat => !decide (seat ∈ cs)))).error.isNone = false := by
          rw [checkDuplicateSeats_error_isNone, hdupB]
        have hex : ∃ seat ∈ fd.seats, seat ∈ bookedSeats ∧ seat ∉ cs := by
          have hna : ¬ ∀ seat ∈ fd.seats,
              seat ∉ bookedSeats.filter (fun seat => !decide (seat ∈ cs)) := fun hall =>
            hdup ((checkDuplicateSeats_spec fd.seats
              (bookedSeats.filter (fun seat => !decide (seat ∈ cs)))).1.mpr hall)
          push_neg at hna
          obtain ⟨seat, hseat, hmem⟩ := hna
          obtain ⟨hmemB, hown⟩ := List.mem_filter.mp hmem
          exact ⟨seat, hseat, hmemB, by simpa using hown⟩
        have hS : (checkDuplicateSeats fd.seats
            (bookedSeats.filter (fun seat => !decide (seat ∈ cs)))).error.isSome = true := by
          cases hoe : (checkDuplicateSeats fd.seats
              (bookedSeats.filter (fun seat => !decide (seat ∈ cs)))).error with
          | none => rw [hoe] at hdupN; simp at hdupN
          | some e => rfl
        have hres : (validateBookingForm today fd bookedSeats cnt).1
            = ⟨false, ⟨none, none, (checkDuplicateSeats fd.seats
                (bookedSeats.filter (fun seat => !decide (seat ∈ cs)))).error⟩⟩ := by
          unfold validateBookingForm
          simp [hcn, hm, hd, hs, h0, h1, errorsEmpty, hbid, hdupB, hdupN]
        rw [hres]
        exact ⟨iff_of_true rfl hex, iff_of_true hS hex⟩

/-- Witness for C4 at the spec's example: creating with `A5` already booked
fails, while editing the booking that owns `A5` and re-selecting it succeeds. -/
theorem duplicate_check_paths_witness :
    ((validateBookingForm "2000-01-01" ⟨"9876543210", "2099-06-15", ["A5"], none, none⟩
        ["A5"] 0).1).isValid = false
    ∧ ((validateBookingForm "2000-01-01"
        ⟨"9876543210", "2099-06-15", ["A5"], some "BK-20990615-000001", some ["A5"]⟩
        ["A5"] 0).1).isValid = true := by
  constructor
  · exact ((duplicate_check_paths "2000-01-01"
      ⟨"9876543210", "2099-06-15", ["A5"], none, none⟩ ["A5"] 0
      (by decide) (by decide) (by decide) (by decide)).1 rfl).1.mpr (by decide)
  · have h := ((duplicate_check_paths "2000-01-01"
      ⟨"9876543210", "2099-06-15", ["A5"], some "BK-20990615-000001", some ["A5"]⟩ ["A5"] 0
      (by decide) (by decide) (by decide) (by decide)).2 "BK-20990615-000001" ["A5"]
      rfl (by decide) rfl).1
    cases hb : ((validateBookingForm "2000-01-01"
        ⟨"9876543210", "2099-06-15", ["A5"], some "BK-20990615-000001", some ["A5"]⟩
        ["A5"] 0).1).isValid with
    | false => exact absurd (h.mp hb) (by decide)
    | true => rfl

/-! ## C7: upsert / loadAll round-trip -/

/-- C7: for a valid booking whose seats do not overlap any other booking of
the same travel date, a successful upsert followed by a load yields a store
containing that booking with every field unchanged. -/
theorem upsert_loadAll_roundtrip (s : Store) (b : Booking)
    (hne : b.seats ≠ []) (hcount : b.seats.length ≤ 6)
    (hdisj : ∀ b' ∈ s.bookings, b'.bookingId ≠ b.bookingId →
      b'.travelDate = b.travelDate → ∀ seat ∈ b.seats, seat ∉ b'.seats)
    (hsucc : ((saveBooking b s).1).success = true) :
    b ∈ (loadAllMem ((saveBooking b s).2)).bookings := by
  unfold loadAllMem saveBooking
  cases hf : List.findIdx? (fun x => x.bookingId == b.bookingId) s.bookings with
  | some i =>
    simp only
    obtain ⟨h0, hlen, -⟩ := findIdx?_loc (fun x => x.bookingId == b.bookingId) s.bookings 0 i hf
    exact List.mem_set s.bookings i (by omega) b
  | none => simp

/-- Witness for C7: a fresh booking saved into the empty store is read back
unchanged. -/
theorem upsert_loadAll_roundtrip_witness :
    (⟨"BK-20250101-000001", "2025-01-01", "9876543210", ["A1"], "t0", "not_boarded"⟩ : Booking)
      ∈ (loadAllMem ((saveBooking
          ⟨"BK-20250101-000001", "2025-01-01", "9876543210", ["A1"], "t0", "not_boarded"⟩
          ⟨[], 0⟩).2)).bookings :=
  upsert_loadAll_roundtrip ⟨[], 0⟩
    ⟨"BK-20250101-000001", "2025-01-01", "9876543210", ["A1"], "t0", "not_boarded"⟩
    (by decide) (by decide) (by decide) (by decide)

/-! ## C2: boarding time statistics for a nonempty day -/

/-- C2: for `n ≥ 1` bookings, the natural-order time is `n × 60`, the optimal
time is the constant `60`, and the savings of those two values are
`n × 60 − 60` seconds with percentage `round(savings / (n × 60) × 100)`. -/
theorem boarding_time_stats (bookings : List Booking) (h : bookings ≠ []) :
    calculateNaturalOrderTime bookings = bookings.length * 60
    ∧ (calculateBoardingTime bookings).optimalTimeSeconds = 60
    ∧ (calculateTimeSavings (calculateNaturalOrderTime bookings)
        ((calculateBoardingTime bookings).optimalTimeSeconds)).savingsSeconds
        = (bookings.length : Int) * 60 - 60
    ∧ (calculateTimeSavings (calculateNaturalOrderTime bookings)
        ((calculateBoardingTime bookings).optimalTimeSeconds)).savingsPercentage
        = JSNum.val (round ((((bookings.length : ℚ) * 60 - 60)
            / ((bookings.length : ℚ) * 60)) * 100)) := by
  cases bookings with
  | nil => exact absurd rfl h
  | cons x xs =>
    have hN : calculateNaturalOrderTime (x :: xs) = (x :: xs).length * 60 := by
      simp [calculateNaturalOrderTime]
    have hB : (calculateBoardingTime (x :: xs)).optimalTimeSeconds = 60 := by
      simp [calculateBoardingTime]
    have hy0 : (0 : ℚ) < ((((x :: xs).length * 60 : Nat) : Int) : ℚ) := by
      simp only [List.length_cons]
      push_cast
      positivity
    have hy : ((((x :: xs).length * 60 : Nat) : Int) : ℚ) ≠ 0 := ne_of_gt hy0
    refine ⟨hN, hB, ?_, ?_⟩
    · rw [hN, hB]
      simp only [calculateTimeSavings]
      push_cast
      ring
    · rw [hN, hB]
      simp only [calculateTimeSavings]
      simp only [jsDiv]
      rw [if_neg hy]
      simp only [jsMulConst, jsToFixed0]
      congr 2
      push_cast
      ring

/-- Witness for C2 at the spec's example `n = 5`: times 300 and 60, savings
240 seconds, percentage 80. -/
theorem boarding_time_stats_witness :
    calculateNaturalOrderTime (List.replicate 5
        (⟨"BK-20250101-000001", "2025-01-01", "9876543210", ["A1"], "t0", "not_boarded"⟩ : Booking))
      = 300
    ∧ (calculateBoardingTime (List.replicate 5
        (⟨"BK-20250101-000001", "2025-01-01", "9876543210", ["A1"], "t0", "not_boarded"⟩ : Booking))).optimalTimeSeconds
      = 60
    ∧ (calculateTimeSavings 300 60).savingsSeconds = 240
    ∧ (calculateTimeSavings 300 60).savingsPercentage = JSNum.val 80 := by
  have h := boarding_time_stats (List.replicate 5
    (⟨"BK-20250101-000001", "2025-01-01", "9876543210", ["A1"], "t0", "not_boarded"⟩ : Booking))
    (by decide)
  obtain ⟨h1, h2, h3, h4⟩ := h
  rw [h1, h2] at h3 h4
  refine ⟨by simpa using h1, h2, by simpa using h3, ?_⟩
  have : (calculateTimeSavings 300 60).savingsPercentage
      = JSNum.val (round ((((5 : ℚ) * 60 - 60) / ((5 : ℚ) * 60)) * 100)) := by
    simpa using h4
  rw [this]
  norm_num [round_eq]

/-! ## Decimal printing / parsing lemmas for the id generator -/

theorem digitsAuxJs_lt_ten : ∀ (fuel n d : Nat), d ∈ digitsAuxJs fuel n → d < 10 := by
  intro fuel
  induction fuel with
  | zero => intro n d h; simp [digitsAuxJs] at h
  | succ fuel ih =>
    intro n d h
    rw [digitsAuxJs] at h
    split_ifs at h with h0
    · simp at h
    · rcases List.mem_cons.mp h with rfl | hmem
      · exact Nat.mod_lt n (by norm_num)
      · exact ih (n / 10) d hmem

theorem decDigitChar_val (d : Nat) (h : d < 10) : charDigitVal (decDigitChar d) = d := by
  interval_cases d <;> decide

theorem decDigitChar_isDigit (d : Nat) (h : d < 10) : (decDigitChar d).isDigit = true := by
  interval_cases d <;> decide

theorem ne_dash_of_isDigit (c : Char) (h : c.isDigit = true) : (c != '-') = true := by
  rcases eq_or_ne c '-' with rfl | hne
  · exact absurd h (by decide)
  · simp [bne_iff_ne, hne]

theorem parseDigitsBE_digitsAux :
    ∀ (fuel n : Nat), n ≤ fuel →
      parseDigitsBE ((digitsAuxJs fuel n).reverse.map decDigitChar) = n := by
  intro fuel
  induction fuel with
  | zero =>
    intro n hn
    obtain rfl : n = 0 := by omega
    rfl
  | succ fuel ih =>
    intro n hn
    by_cases h0 : n = 0
    · subst h0; rfl
    · have hdiv : n / 10 < n := Nat.div_lt_self (by omega) (by norm_num)
      have hrec := ih (n / 10) (by omega)
      rw [digitsAuxJs, if_neg h0]
      simp only [List.reverse_cons, List.map_append, List.map_cons, List.map_nil]
      unfold parseDigitsBE at hrec ⊢
      rw [List.foldl_append]
      simp only [List.foldl_cons, List.foldl_nil, hrec,
        decDigitChar_val (n % 10) (Nat.mod_lt n (by norm_num))]
      have := Nat.div_add_mod n 10
      omega

theorem parseDigitsBE_jsNatToString (n : Nat) :
    parseDigitsBE (jsNatToString n).data = n := by
  unfold jsNatToString
  split_ifs with h0
  · subst h0; rfl
  · exact parseDigitsBE_digitsAux n n (le_refl n)

theorem jsNatToString_all_digit (n : Nat) :
    ∀ c ∈ (jsNatToString n).data, c.isDigit = true := by
  unfold jsNatToString
  split_ifs with h0
  · intro c hc; simp at hc; subst hc; decide
  · intro c hc
    simp only [List.mem_map, List.mem_reverse] at hc
    obtain ⟨d, hd, rfl⟩ := hc
    exact decDigitChar_isDigit d (digitsAuxJs_lt_ten n n d hd)

theorem jsNatToString_ne_nil (n : Nat) : (jsNatToString n).data ≠ [] := by
  unfold jsNatToString
  split_ifs with h0
  · simp
  · cases hn : n with
    | zero => exact absurd hn h0
    | succ m => simp [digitsAuxJs]

theorem foldl_digit_zeros (k : Nat) :
    List.foldl (fun a c => a * 10 + charDigitVal c) 0 (List.replicate k '0') = 0 := by
  induction k with
  | zero => rfl
  | succ k ih => rw [List.replicate_succ]; simpa using ih

theorem padStart6_all_digit (n : Nat) :
    ∀ c ∈ (padStart6 (jsNatToString n)).data, c.isDigit = true := by
  unfold padStart6
  intro c hc
  rcases List.mem_append.mp hc with hz | hd
  · obtain rfl := List.eq_of_mem_replicate hz
    decide
  · exact jsNatToString_all_digit n c hd

theorem jsParseInt_padStart6 (n : Nat) :
    jsParseInt (padStart6 (jsNatToString n)) = some n := by
  unfold jsParseInt
  have hall : ((padStart6 (jsNatToString n)).data.takeWhile Char.isDigit)
      = (padStart6 (jsNatToString n)).data :=
    List.takeWhile_eq_self_iff.mpr (padStart6_all_digit n)
  rw [hall]
  have hne : (padStart6 (jsNatToString n)).data ≠ [] := by
    unfold padStart6
    intro h
    exact jsNatToString_ne_nil n (by simpa using (List.append_eq_nil.mp h).2)
  rw [if_neg (by simpa using hne)]
  unfold padStart6 parseDigitsBE
  rw [List.foldl_append, foldl_digit_zeros]
  exact congrArg some (parseDigitsBE_jsNatToString n)

/-! ## The generated booking id's numeric suffix -/

theorem numericSuffix_generateBookingId (date : String) (s : Store) :
    numericSuffix (generateBookingId date s) = some (s.lastBookingNumber + 1) := by
  unfold numericSuffix generateBookingId getNextBookingNumber lastDashComponent
  have hdata : (BOOKING_ID_PREFIX ++ "-" ++ removeDashes date ++ "-"
      ++ padStart6 (jsNatToString (s.lastBookingNumber + 1))).data
      = ("BK".data ++ "-".data ++ (removeDashes date).data)
        ++ ('-' :: (padStart6 (jsNatToString (s.lastBookingNumber + 1))).data) := by
    simp only [String.data_append, BOOKING_ID_PREFIX]
    simp [List.append_assoc]
  rw [hdata]
  have hpad : ∀ c ∈ (padStart6 (jsNatToString (s.lastBookingNumber + 1))).data.reverse,
      (c != '-') = true := by
    intro c hc
    exact ne_dash_of_isDigit c
      (padStart6_all_digit (s.lastBookingNumber + 1) c (List.mem_reverse.mp hc))
  rw [List.reverse_append]
  have hrev : ('-' :: (padStart6 (jsNatToString (s.lastBookingNumber + 1))).data).reverse
      = (padStart6 (jsNatToString (s.lastBookingNumber + 1))).data.reverse ++ ['-'] := by
    simp
  rw [hrev, List.append_assoc]
  rw [List.takeWhile_append]
  rw [List.takeWhile_eq_self_iff.mpr hpad, if_pos rfl]
  have htail : List.takeWhile (fun c => c != '-')
      (['-'] ++ ("BK".data ++ "-".data ++ (removeDashes date).data).reverse) = [] := by
    simp [List.takeWhile]
  rw [htail, List.append_nil, List.reverse_reverse]
  exact jsParseInt_padStart6 (s.lastBookingNumber + 1)

/-! ## Store-operation lemmas -/

theorem lastBookingNumber_save_le (b : Booking) (s : Store) :
    s.lastBookingNumber ≤ ((saveBooking b s).2).lastBookingNumber := by
  unfold saveBooking
  cases hf : List.findIdx? (fun x => x.bookingId == b.bookingId) s.bookings with
  | some i => simp
  | none =>
    cases hns : numericSuffix b.bookingId with
    | none => simp
    | some k =>
      simp only
      split_ifs <;> omega

theorem lastBookingNumber_del_le (bookingId : String) (s : Store) :
    s.lastBookingNumber ≤ ((deleteBooking bookingId s).2).lastBookingNumber := by
  simp only [deleteBooking]
  split_ifs <;> simp

theorem lastBookingNumber_op_le (s : Store) (op : StoreOp) :
    s.lastBookingNumber ≤ (applyOp s op).lastBookingNumber := by
  cases op with
  | save b => exact lastBookingNumber_save_le b s
  | del bookingId => exact lastBookingNumber_del_le bookingId s

theorem lastBookingNumber_ops_le (ops : List StoreOp) :
    ∀ s : Store, s.lastBookingNumber ≤ (applyOps s ops).lastBookingNumber := by
  induction ops with
  | nil => intro s; exact le_refl _
  | cons op ops ih =>
    intro s
    exact le_trans (lastBookingNumber_op_le s op) (ih (applyOp s op))

theorem suffixOK_mono (bookingId : String) {l₁ l₂ : Nat}
    (h : suffixOK bookingId l₁ = true) (hle : l₁ ≤ l₂) : suffixOK bookingId l₂ = true := by
  unfold suffixOK at h ⊢
  cases hns : numericSuffix bookingId with
  | none => rfl
  | some k =>
    rw [hns] at h
    simp only [decide_eq_true_eq] at h ⊢
    omega

theorem SuffixInv_save (b : Booking) (s : Store) (hinv : SuffixInv s) :
    SuffixInv ((saveBooking b s).2) := by
  unfold saveBooking
  cases hf : List.findIdx? (fun x => x.bookingId == b.bookingId) s.bookings with
  | some i =>
    intro x hx
    dsimp only at hx ⊢
    rcases List.mem_or_eq_of_mem_set hx with hmem | rfl
    · exact hinv x hmem
    · obtain ⟨-, -, y, hy, hpy⟩ :=
        findIdx?_loc (fun z => z.bookingId == x.bookingId) s.bookings 0 i hf
      have hid : y.bookingId = x.bookingId := by simpa using hpy
      have hOK := hinv y hy
      rwa [hid] at hOK
  | none =>
    cases hns : numericSuffix b.bookingId with
    | none =>
      intro x hx
      dsimp only at hx ⊢
      rcases List.mem_append.mp hx with hmem | hb1
      · exact hinv x hmem
      · obtain rfl : x = b := by simpa using hb1
        unfold suffixOK
        rw [hns]
    | some k =>
      intro x hx
      dsimp only at hx ⊢
      rcases List.mem_append.mp hx with hmem | hb1
      · exact suffixOK_mono _ (hinv x hmem) (by split_ifs <;> omega)
      · obtain rfl : x = b := by simpa using hb1
        unfold suffixOK
        rw [hns]
        simp only [decide_eq_true_eq]
        split_ifs <;> omega

theorem SuffixInv_del (bookingId : String) (s : Store) (hinv : SuffixInv s) :
    SuffixInv ((deleteBooking bookingId s).2) := by
  simp only [deleteBooking]
  split_ifs with h
  · exact hinv
  · intro x hx
    dsimp only at hx ⊢
    exact hinv x (List.mem_of_mem_filter hx)

theorem SuffixInv_op (s : Store) (op : StoreOp) (hinv : SuffixInv s) :
    SuffixInv (applyOp s op) := by
  cases op with
  | save b => exact SuffixInv_save b s hinv
  | del bookingId => exact SuffixInv_del bookingId s hinv

theorem SuffixInv_ops (ops : List StoreOp) :
    ∀ s : Store, SuffixInv s → SuffixInv (applyOps s ops) := by
  induction ops with
  | nil => intro s h; exact h
  | cons op ops ih => intro s h; exact ih (applyOp s op) (SuffixInv_op s op h)

theorem generateBookingId_fresh (date : String) (s : Store) (hinv : SuffixInv s) :
    ∀ b' ∈ s.bookings, (b'.bookingId == generateBookingId date s) = false := by
  intro b' hb'
  by_contra hne
  have heq : b'.bookingId = generateBookingId date s := by
    cases h : (b'.bookingId == generateBookingId date s) with
    | true => exact eq_of_beq h
    | false => exact absurd h hne
  have hOK := hinv b' hb'
  unfold suffixOK at hOK
  rw [heq, numericSuffix_generateBookingId] at hOK
  simp only [decide_eq_true_eq] at hOK
  omega

theorem saveBooking_fresh_last (b : Booking) (s : Store)
    (hfresh : ∀ b' ∈ s.bookings, (b'.bookingId == b.bookingId) = false)
    (hsuf : numericSuffix b.bookingId = some (s.lastBookingNumber + 1)) :
    ((saveBooking b s).2).lastBookingNumber = s.lastBookingNumber + 1 := by
  unfold saveBooking
  rw [findIdx?_eq_none_of_all (fun x => x.bookingId == b.bookingId) s.bookings 0 hfresh]
  dsimp only
  rw [hsuf]
  dsimp only
  rw [if_pos (by omega)]

/-! ## C6: counter monotonicity and strictly increasing generated ids -/

/-- C6: over any sequence of upserts and deletions the counter is monotone
non-decreasing and keeps dominating every existing id's numeric suffix; a
booking id generated from the current store is fresh, carries suffix
`lastSequenceNumber + 1`, and after upserting it, any id generated later —
whatever operations (including deletions) happen in between — has a strictly
larger numeric suffix. -/
theorem counter_and_suffix_invariant (s : Store) (ops : List StoreOp)
    (date₁ date₂ : String) (b : Booking)
    (hinv : SuffixInv s)
    (hb : b.bookingId = generateBookingId date₁ s) :
    s.lastBookingNumber ≤ (applyOps s ops).lastBookingNumber
    ∧ SuffixInv (applyOps s ops)
    ∧ (∀ b' ∈ s.bookings, b'.bookingId ≠ b.bookingId)
    ∧ numericSuffix b.bookingId = some (s.lastBookingNumber + 1)
    ∧ (∃ k, numericSuffix (generateBookingId date₂ (applyOps ((saveBooking b s).2) ops))
          = some k
        ∧ s.lastBookingNumber + 1 < k) := by
  have hsuf : numericSuffix b.bookingId = some (s.lastBookingNumber + 1) := by
    rw [hb]; exact numericSuffix_generateBookingId date₁ s
  have hfreshB : ∀ b' ∈ s.bookings, (b'.bookingId == b.bookingId) = false := by
    intro b' hb'
    rw [hb]
    exact generateBookingId_fresh date₁ s hinv b' hb'
  refine ⟨lastBookingNumber_ops_le ops s, SuffixInv_ops ops s hinv, ?_, hsuf, ?_⟩
  · intro b' hb' heq
    have hfalse := hfreshB b' hb'
    rw [heq] at hfalse
    simp at hfalse
  · have h1 : ((saveBooking b s).2).lastBookingNumber = s.lastBookingNumber + 1 :=
      saveBooking_fresh_last b s hfreshB hsuf
    have h2 := lastBookingNumber_ops_le ops ((saveBooking b s).2)
    rw [h1] at h2
    exact ⟨(applyOps ((saveBooking b s).2) ops).lastBookingNumber + 1,
      numericSuffix_generateBookingId date₂ _, by omega⟩

/-- Witness for C6: a store with one booking (suffix 3, counter 3); the
generated id gets suffix 4, is fresh, and after upserting it and deleting the
old booking the next generated id's suffix is strictly larger. -/
theorem counter_and_suffix_invariant_witness :
    let s0 : Store :=
      ⟨[⟨"BK-20250101-000003", "2025-01-01", "9876543210", ["A1"], "t0", "not_boarded"⟩], 3⟩
    let b4 : Booking :=
      ⟨"BK-20250102-000004", "2025-01-02", "9876543210", ["B2"], "t1", "not_boarded"⟩
    let ops : List StoreOp := [StoreOp.del "BK-20250101-000003"]
    SuffixInv s0 ∧ b4.bookingId = generateBookingId "2025-01-02" s0
    ∧ (s0.lastBookingNumber ≤ (applyOps s0 ops).lastBookingNumber
      ∧ SuffixInv (applyOps s0 ops)
      ∧ (∀ b' ∈ s0.bookings, b'.bookingId ≠ b4.bookingId)
      ∧ numericSuffix b4.bookingId = some (s0.lastBookingNumber + 1)
      ∧ (∃ k, numericSuffix (generateBookingId "2025-01-03"
            (applyOps ((saveBooking b4 s0).2) ops)) = some k
          ∧ s0.lastBookingNumber + 1 < k)) := by
  exact ⟨by decide, by decide,
    counter_and_suffix_invariant _ _ "2025-01-02" "2025-01-03" _ (by decide) (by decide)⟩

/-! ## Order lemmas for the boarding comparator -/

theorem tupleGT_trans (x y z : Nat × Nat × Nat) (h1 : tupleGT x y) (h2 : tupleGT y z) :
    tupleGT x z := by
  obtain ⟨x1, x2, x3⟩ := x
  obtain ⟨y1, y2, y3⟩ := y
  obtain ⟨z1, z2, z3⟩ := z
  unfold tupleGT at *
  dsimp only at *
  omega

theorem tupleGT_total_of_ne (x y : Nat × Nat × Nat) (h : x ≠ y) :
    tupleGT x y ∨ tupleGT y x := by
  obtain ⟨x1, x2, x3⟩ := x
  obtain ⟨y1, y2, y3⟩ := y
  unfold tupleGT
  dsimp only
  simp only [ne_eq, Prod.mk.injEq, not_and] at h
  by_cases h1 : x1 = y1
  · by_cases h2 : x2 = y2
    · have h3 : x3 ≠ y3 := fun h3 => (h h1 h2) h3
      omega
    · omega
  · omega

theorem claimOrd_trans (a b c : SeqBooking) (h1 : claimOrd a b) (h2 : claimOrd b c) :
    claimOrd a c := by
  rcases h1 with hGT1 | ⟨e1, l1⟩ <;> rcases h2 with hGT2 | ⟨e2, l2⟩
  · exact Or.inl (tupleGT_trans _ _ _ hGT1 hGT2)
  · exact Or.inl (by rw [← e2]; exact hGT1)
  · exact Or.inl (by rw [e1]; exact hGT2)
  · exact Or.inr ⟨e1.trans e2, le_trans l1 l2⟩

theorem claimOrd_total (a b : SeqBooking) : claimOrd a b ∨ claimOrd b a := by
  by_cases hkey : boardingKey a = boardingKey b
  · rcases le_total a.bookingId.data b.bookingId.data with h | h
    · exact Or.inl (Or.inr ⟨hkey, h⟩)
    · exact Or.inr (Or.inr ⟨hkey.symm, h⟩)
  · rcases tupleGT_total_of_ne _ _ hkey with h | h
    · exact Or.inl (Or.inl h)
    · exact Or.inr (Or.inl h)

theorem jsCmp_le_iff (a b : SeqBooking) : jsCmp a b ≤ 0 ↔ claimOrd a b := by
  unfold jsCmp claimOrd tupleGT boardingKey jsStrCmp
  dsimp only
  by_cases h1 : b.farthestRow = a.farthestRow
  · rw [if_neg (by omega)]
    by_cases h2 : b.seatsInFarthestRow = a.seatsInFarthestRow
    · rw [if_neg (by omega)]
      by_cases h3 : b.totalSeats = a.totalSeats
      · rw [if_neg (by omega)]
        have hkey : (a.farthestRow, a.seatsInFarthestRow, a.totalSeats)
            = (b.farthestRow, b.seatsInFarthestRow, b.totalSeats) := by
          simp [h1, h2, h3]
        rcases lt_trichotomy a.bookingId.data b.bookingId.data with hs | hs | hs
        · rw [if_pos hs]
          exact iff_of_true (by norm_num) (Or.inr ⟨hkey, le_of_lt hs⟩)
        · rw [if_neg (by rw [hs]; exact lt_irrefl _), if_neg (by rw [hs]; exact lt_irrefl _)]
          exact iff_of_true le_rfl (Or.inr ⟨hkey, le_of_eq hs⟩)
        · rw [if_neg (lt_asymm hs), if_pos hs]
          refine iff_of_false (by norm_num) ?_
          rintro (hGT | ⟨-, hle⟩)
          · rcases hGT with h | ⟨he1, h | ⟨he2, h⟩⟩ <;> omega
          · exact absurd hle (not_le.mpr hs)
      · rw [if_pos (by omega)]
        constructor
        · intro h
          exact Or.inl (Or.inr ⟨h1.symm, Or.inr ⟨h2.symm, by omega⟩⟩)
        · rintro (hGT | ⟨hkeq, -⟩)
          · rcases hGT with h | ⟨he1, h | ⟨he2, h⟩⟩ <;> omega
          · have h3' := congrArg (fun p : Nat × Nat × Nat => p.2.2) hkeq
            dsimp only at h3'
            omega
    · rw [if_pos (by omega)]
      constructor
      · intro h
        exact Or.inl (Or.inr ⟨h1.symm, Or.inl (by omega)⟩)
      · rintro (hGT | ⟨hkeq, -⟩)
        · rcases hGT with h | ⟨he1, h | ⟨he2, h⟩⟩ <;> omega
        · have h2' := congrArg (fun p : Nat × Nat × Nat => p.2.1) hkeq
          dsimp only at h2'
          omega
  · rw [if_pos (by omega)]
    constructor
    · intro h
      exact Or.inl (Or.inl (by omega))
    · rintro (hGT | ⟨hkeq, -⟩)
      · rcases hGT with h | ⟨he1, h | ⟨he2, h⟩⟩ <;> omega
      · have h1' := congrArg (fun p : Nat × Nat × Nat => p.1) hkeq
        dsimp only at h1'
        omega

theorem boardingLE_iff (a b : SeqBooking) : boardingLE a b = true ↔ claimOrd a b := by
  unfold boardingLE
  rw [decide_eq_true_iff]
  exact jsCmp_le_iff a b

/-! ## Lemmas about the sequence-number assignment and the farthest row -/

theorem mem_withSeq :
    ∀ (i : Nat) (l : List SeqBooking) (x : SeqBooking), x ∈ withSeq i l →
      ∃ j y, y ∈ l ∧ x = {y with sequenceNumber := j} := by
  intro i l
  induction l generalizing i with
  | nil => intro x hx; simp [withSeq] at hx
  | cons hd tl ih =>
    intro x hx
    rw [withSeq] at hx
    rcases List.mem_cons.mp hx with rfl | hmem
    · exact ⟨i, hd, by simp⟩
    · obtain ⟨j, y, hy, rfl⟩ := ih (i + 1) x hmem
      exact ⟨j, y, by simp [hy]⟩

theorem map_strip_withSeq : ∀ (i : Nat) (l : List SeqBooking),
    (withSeq i l).map stripSeq = l.map stripSeq := by
  intro i l
  induction l generalizing i with
  | nil => rfl
  | cons hd tl ih => simp [withSeq, stripSeq, ih]

theorem map_seq_withSeq : ∀ (i : Nat) (l : List SeqBooking),
    (withSeq i l).map (fun x => x.sequenceNumber) = List.range' i l.length := by
  intro i l
  induction l generalizing i with
  | nil => rfl
  | cons hd tl ih => simp [withSeq, List.range'_succ, ih]

theorem pairwise_withSeq {R : SeqBooking → SeqBooking → Prop}
    (hR : ∀ x y i j, R x y → R {x with sequenceNumber := i} {y with sequenceNumber := j}) :
    ∀ (i : Nat) (l : List SeqBooking), l.Pairwise R → (withSeq i l).Pairwise R := by
  intro i l
  induction l generalizing i with
  | nil => intro _; exact List.Pairwise.nil
  | cons hd tl ih =>
    intro h
    obtain ⟨hhd, htl⟩ := List.pairwise_cons.mp h
    rw [withSeq]
    refine List.Pairwise.cons ?_ (ih (i + 1) htl)
    intro y hy
    obtain ⟨j, z, hz, rfl⟩ := mem_withSeq (i + 1) tl y hy
    exact hR hd z i j (hhd z hz)

theorem claimOrd_seq_update (x y : SeqBooking) (i j : Nat) (h : claimOrd x y) :
    claimOrd {x with sequenceNumber := i} {y with sequenceNumber := j} := by
  unfold claimOrd tupleGT boardingKey at *
  dsimp only at *
  exact h

theorem le_foldl_max : ∀ (l : List Nat) (a : Nat),
    a ≤ l.foldl max a ∧ ∀ x ∈ l, x ≤ l.foldl max a := by
  intro l
  induction l with
  | nil => intro a; exact ⟨le_refl a, by simp⟩
  | cons hd tl ih =>
    intro a
    obtain ⟨h1, h2⟩ := ih (max a hd)
    rw [List.foldl_cons]
    refine ⟨le_trans (le_max_left a hd) h1, ?_⟩
    intro x hx
    rcases List.mem_cons.mp hx with rfl | hmem
    · exact le_trans (le_max_right a x) h1
    · exact h2 x hmem

theorem foldl_max_mem : ∀ (l : List Nat) (a : Nat),
    l.foldl max a ∈ l ∨ l.foldl max a = a := by
  intro l
  induction l with
  | nil => intro a; exact Or.inr rfl
  | cons hd tl ih =>
    intro a
    rw [List.foldl_cons]
    rcases ih (max a hd) with h | h
    · exact Or.inl (List.mem_cons_of_mem hd h)
    · rcases le_total a hd with hle | hle
      · rw [h, max_eq_right hle]
        exact Or.inl (List.mem_cons_self hd tl)
      · rw [h, max_eq_left hle]
        exact Or.inr rfl

theorem findFarthestRow_spec (seats : List String) (hne : seats ≠ []) :
    (∀ s ∈ seats, extractRowNumber s ≤ findFarthestRow seats)
    ∧ ∃ s ∈ seats, extractRowNumber s = findFarthestRow seats := by
  unfold findFarthestRow
  rw [if_neg (by simpa using hne)]
  constructor
  · intro s hs
    exact (le_foldl_max (seats.map extractRowNumber) 0).2 (extractRowNumber s)
      (List.mem_map_of_mem extractRowNumber hs)
  · rcases foldl_max_mem (seats.map extractRowNumber) 0 with h | h
    · obtain ⟨s, hs, heq⟩ := List.mem_map.mp h
      exact ⟨s, hs, heq⟩
    · obtain ⟨s0, hs0⟩ := List.exists_mem_of_ne_nil seats hne
      have hle := (le_foldl_max (seats.map extractRowNumber) 0).2 (extractRowNumber s0)
        (List.mem_map_of_mem extractRowNumber hs0)
      exact ⟨s0, hs0, by omega⟩

/-! ## C1: the optimal boarding sequence -/

/-- C1: on a nonempty list of bookings (each with at least one seat), the
planner returns the same bookings annotated with their metadata, carrying the
1-based sequence numbers `1..n`, pairwise ordered descending by
`(farthestRow, seatsInFarthestRow, totalSeats)` with ties broken ascending by
booking id; `farthestRow` is the maximum row over the booking's seats and
`seatsInFarthestRow` counts its seats in that row. -/
theorem optimal_boarding_sequence (bookings : List Booking) (hne : bookings ≠ [])
    (hseats : ∀ b ∈ bookings, b.seats ≠ []) :
    ((calculateOptimalBoardingSequence bookings).map stripSeq).Perm (bookings.map annotate)
    ∧ (calculateOptimalBoardingSequence bookings).map (fun x => x.sequenceNumber)
        = List.range' 1 bookings.length
    ∧ (calculateOptimalBoardingSequence bookings).Pairwise claimOrd
    ∧ ∀ sb ∈ calculateOptimalBoardingSequence bookings,
        (∀ seat ∈ sb.seats, extractRowNumber seat ≤ sb.farthestRow)
        ∧ (∃ seat ∈ sb.seats, extractRowNumber seat = sb.farthestRow)
        ∧ sb.seatsInFarthestRow
            = (sb.seats.filter (fun seat => extractRowNumber seat == sb.farthestRow)).length
        ∧ sb.totalSeats = sb.seats.length := by
  have htrans : ∀ a b c : SeqBooking,
      boardingLE a b = true → boardingLE b c = true → boardingLE a c = true :=
    fun a b c hab hbc => (boardingLE_iff a c).mpr
      (claimOrd_trans a b c ((boardingLE_iff a b).mp hab) ((boardingLE_iff b c).mp hbc))
  have htotal : ∀ a b : SeqBooking, (boardingLE a b || boardingLE b a) = true := by
    intro a b
    rcases claimOrd_total a b with h | h
    · simp [(boardingLE_iff a b).mpr h]
    · simp [(boardingLE_iff b a).mpr h]
  unfold calculateOptimalBoardingSequence
  rw [if_neg (by simpa using hne)]
  have hperm : ((bookings.map annotate).mergeSort boardingLE).Perm (bookings.map annotate) :=
    List.mergeSort_perm (bookings.map annotate) boardingLE
  refine ⟨?_, ?_, ?_, ?_⟩
  · rw [map_strip_withSeq]
    have h1 := hperm.map stripSeq
    have h2 : (bookings.map annotate).map stripSeq = bookings.map annotate := by
      rw [List.map_map]
      have : stripSeq ∘ annotate = annotate := funext fun b => rfl
      rw [this]
    rwa [h2] at h1
  · rw [map_seq_withSeq, hperm.length_eq, List.length_map]
  · have hsorted := List.sorted_mergeSort htrans htotal (bookings.map annotate)
    have hpw : ((bookings.map annotate).mergeSort boardingLE).Pairwise claimOrd :=
      hsorted.imp (fun h => (boardingLE_iff _ _).mp h)
    exact pairwise_withSeq claimOrd_seq_update 1 _ hpw
  · intro sb hsb
    obtain ⟨j, y, hyL, rfl⟩ := mem_withSeq 1 _ sb hsb
    have hy2 : y ∈ bookings.map annotate := hperm.subset hyL
    obtain ⟨b0, hb0, rfl⟩ := List.mem_map.mp hy2
    have hbne := hseats b0 hb0
    obtain ⟨hub, hex⟩ := findFarthestRow_spec b0.seats hbne
    refine ⟨?_, ?_, ?_, ?_⟩
    · simpa [annotate] using hub
    · simpa [annotate] using hex
    · simp [annotate, countSeatsInRow]
    · simp [annotate]

/-- Witness for C1 at the spec's example: farthest rows `[15, 10, 10, 3]` with
the two row-10 bookings having 1 and 2 seats in row 10; the computed sequence
is `15`, then `(10, 2 seats)`, then `(10, 1 seat)`, then `3`. -/
theorem optimal_boarding_sequence_witness :
    let l : List Booking := [
      ⟨"BK-20250101-000001", "2025-01-01", "9876543210", ["A15"], "t", "not_boarded"⟩,
      ⟨"BK-20250101-000002", "2025-01-01", "9876543210", ["A10"], "t", "not_boarded"⟩,
      ⟨"BK-20250101-000003", "2025-01-01", "9876543210", ["B10", "C10"], "t", "not_boarded"⟩,
      ⟨"BK-20250101-000004", "2025-01-01", "9876543210", ["A3"], "t", "not_boarded"⟩]
    (((calculateOptimalBoardingSequence l).map stripSeq).Perm (l.map annotate)
      ∧ (calculateOptimalBoardingSequence l).map (fun x => x.sequenceNumber)
          = List.range' 1 l.length
      ∧ (calculateOptimalBoardingSequence l).Pairwise claimOrd
      ∧ ∀ sb ∈ calculateOptimalBoardingSequence l,
          (∀ seat ∈ sb.seats, extractRowNumber seat ≤ sb.farthestRow)
          ∧ (∃ seat ∈ sb.seats, extractRowNumber seat = sb.farthestRow)
          ∧ sb.seatsInFarthestRow
              = (sb.seats.filter (fun seat => extractRowNumber seat == sb.farthestRow)).length
          ∧ sb.totalSeats = sb.seats.length)
    ∧ (calculateOptimalBoardingSequence l).map (fun x => (x.bookingId, x.sequenceNumber))
        = [("BK-20250101-000001", 1), ("BK-20250101-000003", 2),
           ("BK-20250101-000002", 3), ("BK-20250101-000004", 4)] := by
  refine ⟨optimal_boarding_sequence _ (by decide) (by decide), ?_⟩
  simp [calculateOptimalBoardingSequence, List.mergeSort, annotate, withSeq, boardingLE, jsCmp,
    jsStrCmp, findFarthestRow, countSeatsInRow, extractRowNumber, firstDigitRun, parseDigitsBE,
    charDigitVal, stripSeq]
